/-
  Verification of the nearby-amenities fetch-and-refresh core.

  Shallow embedding of `src/utils/overpass.ts` (query builder, cache key,
  transport retry loop, element normalization) and of the fetch/filter logic
  of `src/components/MapRefresher.tsx`.

  JS strings are modelled as `List Char`; JS numbers as `ℚ` (the inputs the
  claims touch are exact in binary64 up to the rounding the code performs, and
  no claim depends on float rounding error).  `Math.round x` is
  `⌊x + 1/2⌋` (round half toward +∞), which is JS semantics.
  Number→string interpolation is modelled by an injective rendering `numRepr`;
  the claims about the produced strings depend only on the fixed text around
  the interpolated numbers and on injectivity, not on JS's exact decimal form.
-/
import Mathlib

namespace NearbyAmenities

/-! ### Small string (List Char) machinery used to state "query contains clause" -/

/-- `isStartOf n l` : the char list `n` is an initial segment of `l`. -/
def isStartOf : List Char → List Char → Bool
  | [], _ => true
  | _ :: _, [] => false
  | a :: as, b :: bs => a == b && isStartOf as bs

/-- `occursIn n l` : the char list `n` occurs contiguously somewhere in `l`. -/
def occursIn (n : List Char) : List Char → Bool
  | [] => n.isEmpty
  | l@(_ :: xs) => isStartOf n l || occursIn n xs

/-! ### Numbers: JS `Math.round` and the number→string interpolation model -/

/-- JS `Math.round`: round half toward +∞, i.e. `⌊x + 1/2⌋`. -/
def jsRound (x : ℚ) : ℤ := ⌊x + 1/2⌋

/-- Injective stand-in for JS number→string interpolation (`${x}`). -/
def numRepr (q : ℚ) : List Char :=
  if q.den = 1 then (toString q.num).toList
  else (toString q.num).toList ++ "/".toList ++ (toString q.den).toList

/-! ### `src/utils/overpass.ts`: rounding, filters, cache key -/

/-- `roundCoord(x) = Math.round(x * 10000) / 10000` (≈11 m grid). -/
def roundCoord (x : ℚ) : ℚ := (jsRound (x * 10000) : ℚ) / 10000

/-- `roundRadius(r) = Math.round((r || 0) / 100) * 100` (100 m buckets). -/
def roundRadius (r : ℚ) : ℚ := (jsRound (r / 100) : ℚ) * 100

/-- `Filters = { toilets: boolean; fountains: boolean; glass: boolean }`. -/
structure Filters where
  toilets : Bool
  fountains : Bool
  glass : Bool
deriving DecidableEq, Repr

/-- `Partial<Filters>`: each field possibly `undefined`. -/
structure PartialFilters where
  toilets : Option Bool
  fountains : Option Bool
  glass : Option Bool
deriving DecidableEq, Repr

/-- The `Partial<Filters>` with every field absent (`{}` in the source;
also what `f || {}` substitutes for `undefined`/`null`). -/
def PartialFilters.empty : PartialFilters := ⟨none, none, none⟩

/-- `normalizeFilters(f)`: `undefined`/`null` object and missing fields map to
`false` via `!!`. -/
def normalizeFilters (f : Option PartialFilters) : Filters :=
  let o := f.getD PartialFilters.empty
  { toilets := o.toilets.getD false
    fountains := o.fountains.getD false
    glass := o.glass.getD false }

/-- A normalized `Filters` used where `Partial<Filters>` is expected
(TS structural subtyping). -/
def Filters.asPartialFilters (f : Filters) : PartialFilters :=
  { toilets := some f.toilets, fountains := some f.fountains, glass := some f.glass }

/-- `+b` in JS: `true → 1`, `false → 0`, then interpolated. -/
def boolDigit (b : Bool) : List Char := if b then "1".toList else "0".toList

/-- `keyFor(lat, lon, radius, filters)` =
`` `${roundCoord lat},${roundCoord lon}|${roundRadius radius}|t${+f.toilets}f${+f.fountains}g${+f.glass}` ``. -/
def keyFor (lat lon radius : ℚ) (filters : Option PartialFilters) : List Char :=
  let f := normalizeFilters filters
  numRepr (roundCoord lat) ++ ",".toList ++ numRepr (roundCoord lon)
    ++ "|".toList ++ numRepr (roundRadius radius)
    ++ "|t".toList ++ boolDigit f.toilets
    ++ "f".toList ++ boolDigit f.fountains
    ++ "g".toList ++ boolDigit f.glass

/-! ### `buildOverpassQL` -/

/-- `(around:${radiusMeters},${lat},${lon});` — the shared clause tail. -/
def aroundTail (r lat lon : ℚ) : List Char :=
  "(around:".toList ++ numRepr r ++ ",".toList ++ numRepr lat
    ++ ",".toList ++ numRepr lon ++ ");".toList

def toiletsClause (r lat lon : ℚ) : List Char :=
  "nwr[\"amenity\"=\"toilets\"]".toList ++ aroundTail r lat lon

def fountainsClause (r lat lon : ℚ) : List Char :=
  "nwr[\"amenity\"=\"drinking_water\"]".toList ++ aroundTail r lat lon

def glassClause1 (r lat lon : ℚ) : List Char :=
  "nwr[\"amenity\"=\"recycling\"][\"recycling:glass\"=\"yes\"]".toList
    ++ aroundTail r lat lon

def glassClause2 (r lat lon : ℚ) : List Char :=
  "nwr[\"amenity\"=\"recycling\"][\"recycling:glass_bottles\"=\"yes\"]".toList
    ++ aroundTail r lat lon

/-- The sentinel query returned when no category is enabled. -/
def emptyHarmlessQuery : List Char :=
  "\n[out:json][timeout:25];\nnode(0,0,0,0);\nout;\n".toList

/-- JS `Array.prototype.join(sep)`. -/
def joinSep (sep : List Char) : List (List Char) → List Char
  | [] => []
  | [x] => x
  | x :: y :: xs => x ++ sep ++ joinSep sep (y :: xs)

/-- `buildOverpassQL(lat, lon, radiusMeters, opts)`: destructuring defaults
`{toilets = true, fountains = true, glass = true} = opts`, clause per enabled
category (two parallel clauses for glass), sentinel query when none enabled. -/
def buildOverpassQL (lat lon : ℚ) (radiusMeters : ℚ)
    (opts : PartialFilters) : List Char :=
  let toilets := opts.toilets.getD true
  let fountains := opts.fountains.getD true
  let glass := opts.glass.getD true
  let parts : List (List Char) :=
    (if toilets then [toiletsClause radiusMeters lat lon] else [])
      ++ (if fountains then [fountainsClause radiusMeters lat lon] else [])
      ++ (if glass then [glassClause1 radiusMeters lat lon,
                         glassClause2 radiusMeters lat lon] else [])
  if parts = [] then emptyHarmlessQuery
  else
    "\n[out:json][timeout:25];\n(\n  ".toList
      ++ joinSep "\n  ".toList parts
      ++ "\n);\nout center;\n".toList

/-! ### `fetchOverpass`: element normalization of a successful response -/

/-- `el.type` of a raw Overpass element. -/
inductive ElType
  | node
  | way
  | relation
deriving DecidableEq, Repr

/-- The string the code interpolates for `${el.type}`. -/
def ElType.name : ElType → List Char
  | .node => "node".toList
  | .way => "way".toList
  | .relation => "relation".toList

def intRepr (i : ℤ) : List Char := (toString i).toList

/-- A raw element of the Overpass JSON body.  `lat`/`lon`/`center`/`tags` may be
absent at runtime (`undefined`), hence `Option`. -/
structure RawElement where
  type : ElType
  id : ℤ
  lat : Option ℚ
  lon : Option ℚ
  center : Option (ℚ × ℚ)
  tags : List (List Char × List Char)
deriving DecidableEq, Repr

/-- A normalized result row.  The TS type declares `lat lon : number`, but the
mapping can actually produce `undefined` there, hence `Option ℚ`. -/
structure OverpassPoint where
  id : List Char
  lat : Option ℚ
  lon : Option ℚ
  tags : List (List Char × List Char)
  type : ElType
deriving DecidableEq, Repr

/-- `el.type === 'node' ? {lat: el.lat, lon: el.lon} : el.center`, then
`latLng?.lat` / `latLng?.lon`. -/
def resolveLatLng (el : RawElement) : Option ℚ × Option ℚ :=
  match el.type with
  | .node => (el.lat, el.lon)
  | _ =>
    match el.center with
    | some c => (some c.1, some c.2)
    | none => (none, none)

/-- The `.map` body of the success path of `fetchOverpass`. -/
def toPoint (el : RawElement) : OverpassPoint :=
  let ll := resolveLatLng el
  { id := el.type.name ++ "/".toList ++ intRepr el.id
    lat := ll.1
    lon := ll.2
    tags := el.tags
    type := el.type }

/-- JS truthiness of a possibly-undefined coordinate: `undefined` and `0` are
falsy, every other number is truthy (`NaN` cannot arise in the ℚ model). -/
def truthyCoord : Option ℚ → Bool
  | none => false
  | some x => x != 0

/-- `(json.elements || []).map(...).filter((p) => p.lat && p.lon)`. -/
def processElements (els : List RawElement) : List OverpassPoint :=
  (els.map toPoint).filter (fun p => truthyCoord p.lat && truthyCoord p.lon)

/-! ### `fetchOverpass`: retry / backoff / mirror-failover loop

The loop is driven by a scripted list of transport results, one per issued
request, consumed in order.  Sleeps and the endpoint index of every issued
request are recorded so that the claims about backoff and mirror switching can
be stated. -/

/-- Parse classes of a `Retry-After` header value, as `parseRetryAfter`
distinguishes them: absent header; a string `Number()` accepts; a string
`Date.parse` accepts; anything else. -/
inductive RAHeader
  | missing
  | numeric (secs : ℚ)
  | httpDate (dateMs : ℚ)
  | malformed
deriving DecidableEq, Repr

/-- `capMs = 15000` — cap to 15s to keep the UI responsive. -/
def capMs : ℚ := 15000

/-- `parseRetryAfter(header)`: seconds (non-negative) or HTTP-date, result in
milliseconds clamped to `[0, capMs]`; `null` otherwise.  (A negative numeric
string falls through to `Date.parse`, which rejects it.) -/
def parseRetryAfter (h : RAHeader) (nowMs : ℚ) : Option ℚ :=
  match h with
  | .missing => none
  | .numeric secs =>
    if 0 ≤ secs then some (min capMs (max 0 (secs * 1000))) else none
  | .httpDate dateMs => some (min capMs (max 0 (dateMs - nowMs)))
  | .malformed => none

/-- One scripted transport result: an HTTP response (status, `Retry-After`
header, the `Date.now()` at receipt, body elements), or a network-level
failure of `fetch` itself. -/
inductive FetchResult
  | ok (status : Nat) (retryAfter : RAHeader) (nowMs : ℚ)
      (elements : List RawElement)
  | netErr
deriving DecidableEq, Repr

/-- How the call ends: a returned point list, `throw Error('Overpass error S')`
(an error carrying status S), a network error rethrown, the script running out
of responses, or the attempt budget exhausted at the loop head. -/
inductive Outcome
  | success (points : List OverpassPoint)
  | httpError (status : Nat)
  | networkError
  | noResponse
  | exhausted
deriving DecidableEq, Repr

/-- Observable trace of one `fetchOverpass` call: final outcome, the sleep
durations performed (ms, in order), and the endpoint index of every issued
request (in order). -/
structure RunTrace where
  outcome : Outcome
  sleeps : List ℚ
  mirrors : List Nat
deriving DecidableEq, Repr

/-- `maxAttempts = 3` — 1 initial + up to 2 retries on 504. -/
def maxAttempts : Nat := 3

/-- Two mirror endpoints are configured. -/
def endpointCount : Nat := 2

/-- The `while (attempt < maxAttempts)` loop of `fetchOverpass`, one scripted
result per issued request:
  * 429/503 with parsable `Retry-After` → sleep it, same mirror, `attempt--`;
  * 400, 429, or 5xx≠504 with an untried mirror left → `endpointIndex++`,
    sleep 200, `attempt--`;
  * 504 while attempts remain → sleep `400·2^(attempt-1)`, same mirror,
    attempt kept (consumed);
  * otherwise return parsed elements on 2xx, else throw the status. -/
def runFetch (responses : List FetchResult) (attempt endpointIndex : Nat)
    (sleeps : List ℚ) (mirrors : List Nat) : RunTrace :=
  if attempt < maxAttempts then
    match responses with
    | [] => ⟨.noResponse, sleeps, mirrors⟩
    | .netErr :: _ => ⟨.networkError, sleeps, mirrors ++ [endpointIndex]⟩
    | .ok status ra now els :: rest =>
      let attempt1 := attempt + 1
      let mirrors1 := mirrors ++ [endpointIndex]
      match (if status = 429 ∨ status = 503 then parseRetryAfter ra now
             else none) with
      | some w => runFetch rest attempt endpointIndex (sleeps ++ [w]) mirrors1
      | none =>
        if (status = 400 ∨ status = 429 ∨ (500 ≤ status ∧ status ≠ 504))
            ∧ endpointIndex < endpointCount - 1 then
          runFetch rest attempt (endpointIndex + 1) (sleeps ++ [200]) mirrors1
        else if status = 504 ∧ attempt1 < maxAttempts then
          runFetch rest attempt1 endpointIndex
            (sleeps ++ [400 * 2 ^ (attempt1 - 1)]) mirrors1
        else if 200 ≤ status ∧ status < 300 then
          ⟨.success (processElements els), sleeps, mirrors1⟩
        else ⟨.httpError status, sleeps, mirrors1⟩
  else ⟨.exhausted, sleeps, mirrors⟩

/-- A whole `fetchOverpass` call: loop from attempt 0, primary mirror. -/
def fetchOverpassRun (responses : List FetchResult) : RunTrace :=
  runFetch responses 0 0 [] []

/-! ### `MapRefresher`: single-flight fetch lifecycle of `doFetch`

Fetches are identified by the order their `AbortController` is created.
`startMiss` is `doFetch` on a cache miss: it aborts the controller in
`abortRef` (which cancels that fetch if it is still outstanding — aborting an
already-settled fetch changes nothing, so only then is it recorded) and starts
a new fetch.  `complete id res` is the eventual settlement of fetch `id`:
`res = some data` a fulfilled `fetchOverpass`, `none` a rejection.  Because
`ctrl.signal` is threaded through every `fetch` and abortable sleep, a fetch
whose controller was aborted while it was outstanding can only settle as a
rejection; the model forces this.  The `.then` handler writes the cache and
calls `onData`; the `.catch` handler swallows the error and keeps current
data; `.finally` maintains `pendingRef`. -/

structure CtrlState where
  nextId : Nat
  current : Option Nat
  inflight : List Nat
  aborted : List Nat
  pending : Nat
  onDataLog : List (Nat × List OverpassPoint)
  cacheWrites : List Nat
deriving DecidableEq, Repr

def CtrlState.init : CtrlState :=
  { nextId := 0, current := none, inflight := [], aborted := [], pending := 0
    onDataLog := [], cacheWrites := [] }

inductive CtrlEvent
  | startMiss
  | complete (id : Nat) (res : Option (List OverpassPoint))
deriving DecidableEq, Repr

def ctrlStep (s : CtrlState) : CtrlEvent → CtrlState
  | .startMiss =>
    let abortedNow :=
      match s.current with
      | some j => if j ∈ s.inflight then j :: s.aborted else s.aborted
      | none => s.aborted
    { nextId := s.nextId + 1
      current := some s.nextId
      inflight := s.nextId :: s.inflight
      aborted := abortedNow
      pending := s.pending + 1
      onDataLog := s.onDataLog
      cacheWrites := s.cacheWrites }
  | .complete id res =>
    if id ∈ s.inflight then
      let eff := if id ∈ s.aborted then none else res
      { nextId := s.nextId
        current := s.current
        inflight := s.inflight.filter (fun i => i != id)
        aborted := s.aborted
        pending := s.pending - 1
        onDataLog :=
          match eff with
          | some data => (id, data) :: s.onDataLog
          | none => s.onDataLog
        cacheWrites :=
          match eff with
          | some _ => id :: s.cacheWrites
          | none => s.cacheWrites }
    else s

def ctrlRun (evs : List CtrlEvent) : CtrlState := evs.foldl ctrlStep .init

/-! ### `MapRefresher`: the filter-change effect -/

/-- `turnedOn` of the filter-change effect: some category flipped
false → true. -/
def filtersTurnedOn (prev curr : Filters) : Bool :=
  (!prev.toilets && curr.toilets) || (!prev.fountains && curr.fountains)
    || (!prev.glass && curr.glass)

/-- Number of `doFetch` calls the filter-change effect makes. -/
def filterChangeFetchCalls (prev curr : Filters) : Nat :=
  if filtersTurnedOn prev curr then 1 else 0

/-- Controller sanity invariant: fetch ids are allocated below `nextId`, a
fetch that has delivered data (or written the cache) is settled — no longer
in flight — and was never aborted while outstanding. -/
def CtrlInv (s : CtrlState) : Prop :=
  (∀ id ∈ s.inflight, id < s.nextId)
    ∧ (∀ p ∈ s.onDataLog, p.1 < s.nextId)
    ∧ (∀ id ∈ s.aborted, id < s.nextId)
    ∧ (∀ p ∈ s.onDataLog, p.1 ∉ s.aborted)
    ∧ (∀ p ∈ s.onDataLog, p.1 ∉ s.inflight)
    ∧ (∀ id ∈ s.cacheWrites, id < s.nextId)
    ∧ (∀ id ∈ s.cacheWrites, id ∉ s.aborted)
    ∧ (∀ id ∈ s.cacheWrites, id ∉ s.inflight)

/-! ### Helper lemmas -/

theorem isStartOf_self_append (n t : List Char) : isStartOf n (n ++ t) = true := by
  induction n with
  | nil => rfl
  | cons a as ih => simp [isStartOf, ih]

theorem occursIn_of_isStartOf {n l : List Char} (h : isStartOf n l = true) :
    occursIn n l = true := by
  cases l with
  | nil => cases n with
    | nil => rfl
    | cons a as => simp [isStartOf] at h
  | cons x xs => simp [occursIn, h]

theorem occursIn_self_append (n t : List Char) : occursIn n (n ++ t) = true :=
  occursIn_of_isStartOf (isStartOf_self_append n t)

theorem occursIn_append_left {n l : List Char} (pre : List Char)
    (h : occursIn n l = true) : occursIn n (pre ++ l) = true := by
  induction pre with
  | nil => simpa using h
  | cons a as ih => simp [occursIn, ih]

theorem isStartOf_append_right {n l : List Char} (t : List Char)
    (h : isStartOf n l = true) : isStartOf n (l ++ t) = true := by
  induction n generalizing l with
  | nil => rfl
  | cons a as ih =>
    cases l with
    | nil => simp [isStartOf] at h
    | cons b bs =>
      rw [isStartOf] at h
      rcases Bool.and_eq_true_iff.mp h with ⟨hab, hrest⟩
      rw [List.cons_append, isStartOf, hab, Bool.true_and]
      exact ih hrest

theorem occursIn_append_right {n l : List Char} (t : List Char)
    (h : occursIn n l = true) : occursIn n (l ++ t) = true := by
  induction l with
  | nil =>
    have hn : n = [] := by
      cases n with
      | nil => rfl
      | cons a as => simp [occursIn, List.isEmpty] at h
    subst hn
    exact occursIn_self_append [] t
  | cons x xs ih =>
    rw [occursIn] at h
    rcases Bool.or_eq_true_iff.mp h with hs | ho
    · exact occursIn_of_isStartOf (isStartOf_append_right t hs)
    · have := ih ho
      simp [occursIn, this]

/-- Occurrence witnessed by an explicit decomposition `l = pre ++ n ++ post`. -/
theorem occursIn_of_decomp (pre n post : List Char) :
    occursIn n (pre ++ n ++ post) = true := by
  rw [List.append_assoc]
  exact occursIn_append_left pre (occursIn_self_append n post)

theorem ctrlInv_init : CtrlInv CtrlState.init := by
  refine ⟨?_, ?_, ?_, ?_, ?_, ?_, ?_, ?_⟩ <;> simp [CtrlState.init]

theorem ctrlStep_preserves (s : CtrlState) (e : CtrlEvent) (h : CtrlInv s) :
    CtrlInv (ctrlStep s e) := by
  obtain ⟨h1, h2, h3, h4, h5, h6, h7, h8⟩ := h
  cases e with
  | startMiss =>
    have habs : ∀ id ∈ (ctrlStep s .startMiss).aborted,
        id ∈ s.aborted ∨ (id ∈ s.inflight ∧ s.current = some id) := by
      intro id hid
      simp only [ctrlStep] at hid
      cases hcur : s.current with
      | none => simp only [hcur] at hid; exact Or.inl hid
      | some j =>
        by_cases hj : j ∈ s.inflight
        · simp only [hcur, if_pos hj, List.mem_cons] at hid
          rcases hid with rfl | hold
          · exact Or.inr ⟨hj, rfl⟩
          · exact Or.inl hold
        · simp only [hcur, if_neg hj] at hid; exact Or.inl hid
    refine ⟨?_, ?_, ?_, ?_, ?_, ?_, ?_, ?_⟩
    · intro id hid
      rcases List.mem_cons.mp hid with rfl | hold
      · exact Nat.lt_succ_self _
      · exact Nat.lt_trans (h1 id hold) (Nat.lt_succ_self _)
    · intro p hp
      exact Nat.lt_trans (h2 p hp) (Nat.lt_succ_self _)
    · intro id hid
      rcases habs id hid with hold | ⟨hin, -⟩
      · exact Nat.lt_trans (h3 id hold) (Nat.lt_succ_self _)
      · exact Nat.lt_trans (h1 id hin) (Nat.lt_succ_self _)
    · intro p hp hmem
      rcases habs p.1 hmem with hold | ⟨hin, -⟩
      · exact h4 p hp hold
      · exact h5 p hp hin
    · intro p hp hmem
      rcases List.mem_cons.mp hmem with hnew | hold
      · exact absurd hnew (Nat.ne_of_lt (h2 p hp))
      · exact h5 p hp hold
    · intro id hid
      exact Nat.lt_trans (h6 id hid) (Nat.lt_succ_self _)
    · intro id hid hmem
      rcases habs id hmem with hold | ⟨hin, -⟩
      · exact h7 id hid hold
      · exact h8 id hid hin
    · intro id hid hmem
      rcases List.mem_cons.mp hmem with hnew | hold
      · exact absurd hnew (Nat.ne_of_lt (h6 id hid))
      · exact h8 id hid hold
  | complete cid res =>
    by_cases hin : cid ∈ s.inflight
    · have hfil : ∀ x, x ∈ s.inflight.filter (fun i => i != cid) → x ∈ s.inflight := by
        intro x hx; exact (List.mem_filter.mp hx).1
      have hnfil : cid ∉ s.inflight.filter (fun i => i != cid) := by
        intro hx
        have := (List.mem_filter.mp hx).2
        simp at this
      by_cases hab : cid ∈ s.aborted
      · -- a fetch aborted while outstanding settles as a rejection: no effects
        simp only [ctrlStep, if_pos hin, if_pos hab]
        refine ⟨?_, h2, h3, h4, ?_, h6, h7, ?_⟩
        · intro id hid; exact h1 id (hfil id hid)
        · intro p hp hmem; exact h5 p hp (hfil _ hmem)
        · intro id hid hmem; exact h8 id hid (hfil _ hmem)
      · simp only [ctrlStep, if_pos hin, if_neg hab]
        cases res with
        | none =>
          refine ⟨?_, h2, h3, h4, ?_, h6, h7, ?_⟩
          · intro id hid; exact h1 id (hfil id hid)
          · intro p hp hmem; exact h5 p hp (hfil _ hmem)
          · intro id hid hmem; exact h8 id hid (hfil _ hmem)
        | some data =>
          refine ⟨?_, ?_, h3, ?_, ?_, ?_, ?_, ?_⟩
          · intro id hid; exact h1 id (hfil id hid)
          · intro p hp
            rcases List.mem_cons.mp hp with rfl | hold
            · exact h1 _ hin
            · exact h2 p hold
          · intro p hp
            rcases List.mem_cons.mp hp with rfl | hold
            · exact hab
            · exact h4 p hold
          · intro p hp hmem
            rcases List.mem_cons.mp hp with rfl | hold
            · exact hnfil hmem
            · exact h5 p hold (hfil _ hmem)
          · intro id hid
            rcases List.mem_cons.mp hid with rfl | hold
            · exact h1 _ hin
            · exact h6 id hold
          · intro id hid
            rcases List.mem_cons.mp hid with rfl | hold
            · exact hab
            · exact h7 id hold
          · intro id hid hmem
            rcases List.mem_cons.mp hid with rfl | hold
            · exact hnfil hmem
            · exact h8 id hold (hfil _ hmem)
    · simpa only [ctrlStep, if_neg hin] using
        ⟨h1, h2, h3, h4, h5, h6, h7, h8⟩

theorem ctrlRun_inv (evs : List CtrlEvent) : CtrlInv (ctrlRun evs) := by
  rw [ctrlRun]
  have hfold : ∀ (l : List CtrlEvent) (s : CtrlState),
      CtrlInv s → CtrlInv (l.foldl ctrlStep s) := by
    intro l
    induction l with
    | nil => intro s hs; exact hs
    | cons e es ih => intro s hs; exact ih _ (ctrlStep_preserves s e hs)
  exact hfold evs _ ctrlInv_init

theorem occursIn_joinSep (sep x : List Char) :
    ∀ parts : List (List Char), x ∈ parts → occursIn x (joinSep sep parts) = true := by
  intro parts
  induction parts with
  | nil => intro h; cases h
  | cons y ys ih =>
    intro h
    cases ys with
    | nil =>
      have hx : x = y := by simpa using h
      subst hx
      simpa [joinSep] using occursIn_self_append x []
    | cons z zs =>
      rw [joinSep, List.append_assoc]
      rcases List.mem_cons.mp h with hxy | hmem
      · subst hxy
        exact occursIn_self_append x _
      · exact occursIn_append_left _ (occursIn_append_left _ (ih hmem))

/-- A clause that is one of the emitted `parts` occurs in the built query. -/
theorem occursIn_query_of_mem_parts (header footer sep x : List Char)
    (parts : List (List Char)) (h : x ∈ parts) :
    occursIn x (header ++ joinSep sep parts ++ footer) = true := by
  rw [List.append_assoc]
  exact occursIn_append_left header
    (occursIn_append_right footer (occursIn_joinSep sep x parts h))

theorem parseRetryAfter_le_cap {h : RAHeader} {now w : ℚ}
    (hp : parseRetryAfter h now = some w) : w ≤ capMs := by
  cases h with
  | missing => simp [parseRetryAfter] at hp
  | numeric secs =>
    rw [parseRetryAfter] at hp
    split at hp
    · exact (Option.some_inj.mp hp) ▸ min_le_left _ _
    · simp at hp
  | httpDate dateMs =>
    rw [parseRetryAfter] at hp
    exact (Option.some_inj.mp hp) ▸ min_le_left _ _
  | malformed => simp [parseRetryAfter] at hp

/-! ### Claim theorems -/

/-- C8: for every center and radius, with all three filters false the query
builder returns the fixed sentinel query — syntactically complete, containing
the empty-bounds clause `node(0,0,0,0);` — never an omitted/undefined one. -/
theorem c8_allOff_sentinel_query (lat lon r : ℚ) :
    buildOverpassQL lat lon r ⟨some false, some false, some false⟩ = emptyHarmlessQuery
      ∧ occursIn ("node(0,0,0,0);".toList) emptyHarmlessQuery = true
      ∧ occursIn ("[out:json][timeout:25];".toList) emptyHarmlessQuery = true
      ∧ emptyHarmlessQuery ≠ [] := by
  refine ⟨?_, by decide, by decide, by decide⟩
  simp [buildOverpassQL]

/-- C10: `buildOverpassQL` defaults a missing/undefined category to `true`
(clause emitted), the opposite of `normalizeFilters` which maps it to `false`;
`{}` un-normalized yields the all-categories query while its normalized image
yields the sentinel query. -/
theorem c10_default_enabled_vs_normalized (lat lon r : ℚ) :
    buildOverpassQL lat lon r PartialFilters.empty
        = buildOverpassQL lat lon r ⟨some true, some true, some true⟩
      ∧ occursIn (toiletsClause r lat lon)
          (buildOverpassQL lat lon r PartialFilters.empty) = true
      ∧ occursIn (fountainsClause r lat lon)
          (buildOverpassQL lat lon r PartialFilters.empty) = true
      ∧ occursIn (glassClause1 r lat lon)
          (buildOverpassQL lat lon r PartialFilters.empty) = true
      ∧ occursIn (glassClause2 r lat lon)
          (buildOverpassQL lat lon r PartialFilters.empty) = true
      ∧ normalizeFilters (some PartialFilters.empty) = ⟨false, false, false⟩
      ∧ buildOverpassQL lat lon r
          (normalizeFilters (some PartialFilters.empty)).asPartialFilters
          = emptyHarmlessQuery := by
  have hq : buildOverpassQL lat lon r PartialFilters.empty
      = "\n[out:json][timeout:25];\n(\n  ".toList
        ++ joinSep "\n  ".toList
            [toiletsClause r lat lon, fountainsClause r lat lon,
             glassClause1 r lat lon, glassClause2 r lat lon]
        ++ "\n);\nout center;\n".toList := rfl
  refine ⟨rfl, ?_, ?_, ?_, ?_, rfl, rfl⟩
  · rw [hq]
    exact occursIn_query_of_mem_parts _ _ _ _ _ (by simp)
  · rw [hq]
    exact occursIn_query_of_mem_parts _ _ _ _ _ (by simp)
  · rw [hq]
    exact occursIn_query_of_mem_parts _ _ _ _ _ (by simp)
  · rw [hq]
    exact occursIn_query_of_mem_parts _ _ _ _ _ (by simp)

set_option maxRecDepth 20000 in
/-- C1 (counterexample): at center (1,2), radius 100, glass enabled, the built
query contains clauses for the variants `recycling:glass=yes` and
`recycling:glass_bottles=yes` only; the claimed variants `recycling=glass`,
`recycling:glass_packaging=yes` and `recycling:material=glass` do not occur,
so the query does not contain one clause per each of the five variants. -/
theorem c1_five_glass_variants_cx :
    occursIn ("\"recycling:glass\"=\"yes\"".toList)
        (buildOverpassQL 1 2 100 ⟨some true, some true, some true⟩) = true
      ∧ occursIn ("\"recycling:glass_bottles\"=\"yes\"".toList)
          (buildOverpassQL 1 2 100 ⟨some true, some true, some true⟩) = true
      ∧ occursIn ("\"recycling\"=\"glass\"".toList)
          (buildOverpassQL 1 2 100 ⟨some true, some true, some true⟩) = false
      ∧ occursIn ("recycling:glass_packaging".toList)
          (buildOverpassQL 1 2 100 ⟨some true, some true, some true⟩) = false
      ∧ occursIn ("recycling:material".toList)
          (buildOverpassQL 1 2 100 ⟨some true, some true, some true⟩) = false := by
  refine ⟨?_, ?_, ?_, ?_, ?_⟩ <;> decide

/-- C1 (amended): for every center and positive radius, when the glass filter
is enabled the built query contains one parallel clause for each of the two
glass tag variants the code emits — `recycling:glass=yes` and
`recycling:glass_bottles=yes`, both constrained to `amenity=recycling`. -/
theorem c1_glass_two_variant_clauses (lat lon r : ℚ) (opts : PartialFilters)
    (hr : 0 < r) (hglass : opts.glass = some true) :
    occursIn (glassClause1 r lat lon) (buildOverpassQL lat lon r opts) = true
      ∧ occursIn (glassClause2 r lat lon) (buildOverpassQL lat lon r opts) = true := by
  obtain ⟨t, f, g⟩ := opts
  simp only at hglass
  subst hglass
  simp only [buildOverpassQL]
  generalize t.getD true = T
  generalize f.getD true = F
  cases T <;> cases F <;>
    exact ⟨occursIn_query_of_mem_parts _ _ _ _ _ (by simp),
           occursIn_query_of_mem_parts _ _ _ _ _ (by simp)⟩

/-- C1 (witness for the amended theorem). -/
theorem c1_glass_two_variant_clauses_witness :
    occursIn (glassClause1 100 1 2) (buildOverpassQL 1 2 100 ⟨some true, some true, some true⟩) = true
      ∧ occursIn (glassClause2 100 1 2) (buildOverpassQL 1 2 100 ⟨some true, some true, some true⟩) = true :=
  c1_glass_two_variant_clauses 1 2 100 ⟨some true, some true, some true⟩ (by norm_num) rfl

set_option maxRecDepth 20000 in
unseal Rat.mul Rat.inv Rat.add Rat.sub in
/-- C4 (counterexample): the latitudes 0.00004 and 0.00006 differ by less than
0.00005°, the radius buckets and normalized filters agree, yet `keyFor`
produces different keys (the two latitudes round to different grid values). -/
theorem c4_close_coords_different_keys_cx :
    |(4/100000 : ℚ) - 6/100000| < 5/100000
      ∧ roundRadius 1000 = roundRadius 1000
      ∧ normalizeFilters none = normalizeFilters none
      ∧ keyFor (4/100000) 10 1000 none ≠ keyFor (6/100000) 10 1000 none := by
  refine ⟨by decide, rfl, rfl, by decide⟩

/-- C4 (amended): `keyFor` is a pure function of the rounded inputs: two calls
whose coordinates round to the same 0.0001° grid values and whose radius
buckets and normalized filters agree produce identical keys. -/
theorem c4_keyFor_same_rounded (lat₁ lon₁ r₁ lat₂ lon₂ r₂ : ℚ)
    (f₁ f₂ : Option PartialFilters)
    (hlat : roundCoord lat₁ = roundCoord lat₂)
    (hlon : roundCoord lon₁ = roundCoord lon₂)
    (hrad : roundRadius r₁ = roundRadius r₂)
    (hf : normalizeFilters f₁ = normalizeFilters f₂) :
    keyFor lat₁ lon₁ r₁ f₁ = keyFor lat₂ lon₂ r₂ f₂ := by
  simp only [keyFor, hlat, hlon, hrad, hf]

set_option maxRecDepth 20000 in
unseal Rat.mul Rat.inv Rat.add Rat.sub in
/-- C4 (witness): 52.0001 and 52.00007 round to the same grid value and give
the same key. -/
theorem c4_keyFor_same_rounded_witness :
    keyFor (520001/10000) 10 1000 none = keyFor (5200007/100000) 10 1000 none :=
  c4_keyFor_same_rounded (520001/10000) 10 1000 (5200007/100000) 10 1000 none none
    (by decide) rfl rfl rfl

/-- C7: the filter-change effect of the refresh controller calls `doFetch`
exactly once when some category transitions false→true, and not at all when no
category does (in particular for every true→false-only change). -/
theorem c7_filterChange_fetch_count (prev curr : Filters) :
    (((prev.toilets = false ∧ curr.toilets = true)
        ∨ (prev.fountains = false ∧ curr.fountains = true)
        ∨ (prev.glass = false ∧ curr.glass = true))
      → filterChangeFetchCalls prev curr = 1)
    ∧ (¬((prev.toilets = false ∧ curr.toilets = true)
        ∨ (prev.fountains = false ∧ curr.fountains = true)
        ∨ (prev.glass = false ∧ curr.glass = true))
      → filterChangeFetchCalls prev curr = 0) := by
  obtain ⟨pt, pf, pg⟩ := prev
  obtain ⟨ct, cf, cg⟩ := curr
  cases pt <;> cases pf <;> cases pg <;> cases ct <;> cases cf <;> cases cg <;>
    simp [filterChangeFetchCalls, filtersTurnedOn]

/-- C7 (witness): enabling toilets triggers one fetch; disabling it triggers
none. -/
theorem c7_filterChange_fetch_count_witness :
    filterChangeFetchCalls ⟨false, false, false⟩ ⟨true, false, false⟩ = 1
      ∧ filterChangeFetchCalls ⟨true, true, true⟩ ⟨false, true, true⟩ = 0 :=
  ⟨(c7_filterChange_fetch_count ⟨false, false, false⟩ ⟨true, false, false⟩).1
      (Or.inl ⟨rfl, rfl⟩),
   (c7_filterChange_fetch_count ⟨true, true, true⟩ ⟨false, true, true⟩).2
      (by simp)⟩

set_option maxRecDepth 20000 in
/-- C9: the success-path filter `p.lat && p.lon` tests truthiness, so every
returned point has present, non-zero coordinates; an element whose resolved
latitude is exactly 0 (equator) or longitude 0 (prime meridian) is silently
dropped — concretely, a node at (0, 10) is excluded while a node at (5, 6)
is kept. -/
theorem c9_zero_coordinate_dropped :
    (∀ els : List RawElement, ∀ p ∈ processElements els,
        p.lat ≠ none ∧ p.lat ≠ some 0 ∧ p.lon ≠ none ∧ p.lon ≠ some 0)
      ∧ processElements [⟨.node, 7, some 0, some 10, none, []⟩] = []
      ∧ fetchOverpassRun [.ok 200 .missing 0
            [⟨.node, 7, some 0, some 10, none, []⟩,
             ⟨.node, 8, some 5, some 6, none, []⟩]]
          = ⟨.success [⟨"node/8".toList, some 5, some 6, [], .node⟩], [], [0]⟩ := by
  refine ⟨?_, by decide, by decide⟩
  intro els p hp
  rw [processElements, List.mem_filter] at hp
  obtain ⟨-, htr⟩ := hp
  obtain ⟨h1, h2⟩ := Bool.and_eq_true_iff.mp htr
  refine ⟨?_, ?_, ?_, ?_⟩
  · intro hn; rw [hn] at h1; simp [truthyCoord] at h1
  · intro hz; rw [hz] at h1; simp [truthyCoord] at h1
  · intro hn; rw [hn] at h2; simp [truthyCoord] at h2
  · intro hz; rw [hz] at h2; simp [truthyCoord] at h2

/-- C9 (witness): a node at (5, 6) passes the truthiness filter and indeed has
present non-zero coordinates. -/
theorem c9_zero_coordinate_dropped_witness :
    (⟨"node/8".toList, some 5, some 6, [], ElType.node⟩ : OverpassPoint)
        ∈ processElements [⟨.node, 8, some 5, some 6, none, []⟩]
      ∧ (some 5 : Option ℚ) ≠ some 0 :=
  ⟨by decide,
   (c9_zero_coordinate_dropped.1 [⟨.node, 8, some 5, some 6, none, []⟩]
      ⟨"node/8".toList, some 5, some 6, [], .node⟩ (by decide)).2.1⟩

/-- C2: before a cache-miss fetch is issued, any still-outstanding fetch of
this controller is cancelled; and a fetch aborted while outstanding can never
invoke the caller-visible `onData` callback or write the cache — neither at
its own (late) settlement nor anywhere in any run of the controller. -/
theorem c2_cancel_outstanding_stale_never_delivers :
    (∀ (s : CtrlState) (j : Nat), s.current = some j → j ∈ s.inflight →
        j ∈ (ctrlStep s .startMiss).aborted
          ∧ (ctrlStep s .startMiss).current = some s.nextId)
      ∧ (∀ (s : CtrlState) (id : Nat) (res : Option (List OverpassPoint)),
          id ∈ s.aborted →
            (ctrlStep s (.complete id res)).onDataLog = s.onDataLog
              ∧ (ctrlStep s (.complete id res)).cacheWrites = s.cacheWrites)
      ∧ (∀ (evs : List CtrlEvent) (id : Nat) (data : List OverpassPoint),
          (id, data) ∈ (ctrlRun evs).onDataLog → id ∉ (ctrlRun evs).aborted)
      ∧ (∀ (evs : List CtrlEvent) (id : Nat),
          id ∈ (ctrlRun evs).cacheWrites → id ∉ (ctrlRun evs).aborted) := by
  refine ⟨?_, ?_, ?_, ?_⟩
  · intro s j hcur hin
    refine ⟨?_, rfl⟩
    simp only [ctrlStep, hcur, if_pos hin]
    exact List.mem_cons_self _ _
  · intro s id res hab
    by_cases hin : id ∈ s.inflight
    · simp [ctrlStep, hin, hab]
    · simp [ctrlStep, hin]
  · intro evs id data hmem
    exact (ctrlRun_inv evs).2.2.2.1 (id, data) hmem
  · intro evs id hmem
    exact (ctrlRun_inv evs).2.2.2.2.2.2.1 id hmem

/-- C2 (witness): issuing a second fetch aborts the outstanding first one;
settling an aborted fetch leaves the data log unchanged; a fetch that did
deliver data was never aborted. -/
theorem c2_cancel_outstanding_stale_never_delivers_witness :
    0 ∈ (ctrlStep (ctrlRun [.startMiss]) .startMiss).aborted
      ∧ (ctrlStep (ctrlRun [.startMiss, .startMiss])
            (.complete 0 (some []))).onDataLog
          = (ctrlRun [.startMiss, .startMiss]).onDataLog
      ∧ 0 ∉ (ctrlRun [.startMiss, .complete 0 (some [])]).aborted :=
  ⟨(c2_cancel_outstanding_stale_never_delivers.1 (ctrlRun [.startMiss]) 0
      (by decide) (by decide)).1,
   (c2_cancel_outstanding_stale_never_delivers.2.1
      (ctrlRun [.startMiss, .startMiss]) 0 (some []) (by decide)).1,
   c2_cancel_outstanding_stale_never_delivers.2.2.1
      [.startMiss, .complete 0 (some [])] 0 [] (by decide)⟩

/-- C3: if every answer is HTTP 504, `fetchOverpass` issues exactly 3 requests
(the attempt budget), all to the primary mirror, with exponential backoff
sleeps of 400ms then 800ms between them, and fails carrying status 504. -/
theorem c3_all_504_exhausts_three_attempts (rs : List FetchResult)
    (hall : ∀ r ∈ rs, ∃ ra now els, r = FetchResult.ok 504 ra now els)
    (hlen : 3 ≤ rs.length) :
    fetchOverpassRun rs = ⟨.httpError 504, [400, 800], [0, 0, 0]⟩ := by
  rcases rs with - | ⟨a, - | ⟨b, - | ⟨c, rest⟩⟩⟩
  · simp at hlen
  · simp at hlen
  · simp at hlen
  · obtain ⟨ra1, n1, e1, rfl⟩ := hall a (by simp)
    obtain ⟨ra2, n2, e2, rfl⟩ := hall b (by simp)
    obtain ⟨ra3, n3, e3, rfl⟩ := hall c (by simp)
    show runFetch _ 0 0 [] [] = _
    norm_num [runFetch, maxAttempts, endpointCount]

/-- C3 (witness): three scripted 504 responses. -/
theorem c3_all_504_exhausts_three_attempts_witness :
    fetchOverpassRun
        [FetchResult.ok 504 .missing 0 [], FetchResult.ok 504 .missing 0 [],
         FetchResult.ok 504 .missing 0 []]
      = ⟨.httpError 504, [400, 800], [0, 0, 0]⟩ :=
  c3_all_504_exhausts_three_attempts _
    (by
      intro r hr
      simp only [List.mem_cons, List.not_mem_nil, or_false] at hr
      rcases hr with rfl | rfl | rfl <;> exact ⟨.missing, 0, [], rfl⟩)
    (by decide)

/-- C5: a 429/503 response whose `Retry-After` parses sleeps exactly the
parsed duration (≤ the 15s cap), retries the same mirror and consumes no
attempt slot; concretely `[503 Retry-After: 1, 200 OK]` sleeps 1000ms and
returns the parsed results, both requests on the same mirror. -/
theorem c5_retry_after_same_mirror_no_attempt :
    (∀ (st : Nat) (ra : RAHeader) (now : ℚ) (els : List RawElement)
        (rest : List FetchResult) (attempt ei : Nat) (sleeps : List ℚ)
        (mirrors : List Nat) (w : ℚ),
        attempt < maxAttempts → (st = 429 ∨ st = 503) →
        parseRetryAfter ra now = some w →
        runFetch (.ok st ra now els :: rest) attempt ei sleeps mirrors
            = runFetch rest attempt ei (sleeps ++ [w]) (mirrors ++ [ei])
          ∧ w ≤ capMs)
      ∧ (∀ els : List RawElement,
          fetchOverpassRun
              [.ok 503 (.numeric 1) 0 [], .ok 200 .missing 0 els]
            = ⟨.success (processElements els), [1000], [0, 0]⟩) := by
  constructor
  · intro st ra now els rest attempt ei sleeps mirrors w hatt hst hra
    refine ⟨?_, parseRetryAfter_le_cap hra⟩
    rcases hst with rfl | rfl <;> simp [runFetch, hatt, hra]
  · intro els
    have hpa : parseRetryAfter (.numeric 1) 0 = some 1000 := by
      norm_num [parseRetryAfter, capMs]
    simp [fetchOverpassRun, runFetch, hpa, maxAttempts, endpointCount]

unseal Rat.mul Rat.inv Rat.add Rat.sub in
/-- C5 (witness): a 429 with `Retry-After: 2` sleeps 2000ms ≤ cap and retries
the same mirror. -/
theorem c5_retry_after_same_mirror_no_attempt_witness :
    runFetch [.ok 429 (.numeric 2) 0 []] 0 1 [] []
        = runFetch [] 0 1 ([] ++ [2000]) ([] ++ [1])
      ∧ (2000 : ℚ) ≤ capMs :=
  c5_retry_after_same_mirror_no_attempt.1 429 (.numeric 2) 0 [] [] 0 1 [] []
    2000 (by decide) (Or.inl rfl) (by decide)

/-- C6: on 400, 429 without usable `Retry-After`, or 5xx other than 504, with
an untried mirror remaining, the loop advances to the next mirror after a
fixed 200ms pause without consuming an attempt; concretely `[400, 200 OK]`
switches mirrors exactly once and returns the second mirror's results. -/
theorem c6_mirror_failover_on_400_5xx :
    (∀ (st : Nat) (ra : RAHeader) (now : ℚ) (els : List RawElement)
        (rest : List FetchResult) (attempt ei : Nat) (sleeps : List ℚ)
        (mirrors : List Nat),
        attempt < maxAttempts →
        (st = 400 ∨ st = 429 ∨ (500 ≤ st ∧ st ≠ 504)) →
        ((st = 429 ∨ st = 503) → parseRetryAfter ra now = none) →
        ei < endpointCount - 1 →
        runFetch (.ok st ra now els :: rest) attempt ei sleeps mirrors
          = runFetch rest attempt (ei + 1) (sleeps ++ [200]) (mirrors ++ [ei]))
      ∧ (∀ els : List RawElement,
          fetchOverpassRun [.ok 400 .missing 0 [], .ok 200 .missing 0 els]
            = ⟨.success (processElements els), [200], [0, 1]⟩) := by
  constructor
  · intro st ra now els rest attempt ei sleeps mirrors hatt hst hra hei
    rcases hst with rfl | rfl | ⟨h5, hn4⟩
    · simp [runFetch, hatt, hei]
    · have hpa : parseRetryAfter ra now = none := hra (Or.inl rfl)
      simp [runFetch, hatt, hei, hpa]
    · have hpa :
          (if st = 429 ∨ st = 503 then parseRetryAfter ra now else none)
            = none := by
        split
        · exact hra (by assumption)
        · rfl
      simp [runFetch, hatt, hei, hpa, h5, hn4]
  · intro els
    simp [fetchOverpassRun, runFetch, parseRetryAfter, maxAttempts,
      endpointCount]

/-- C6 (witness): a 500 on the primary mirror advances to the fallback after a
200ms pause. -/
theorem c6_mirror_failover_on_400_5xx_witness :
    runFetch [.ok 500 .missing 0 []] 0 0 [] []
      = runFetch [] 0 (0 + 1) ([] ++ [200]) ([] ++ [0]) :=
  c6_mirror_failover_on_400_5xx.1 500 .missing 0 [] [] 0 0 [] [] (by decide)
    (Or.inr (Or.inr ⟨by decide, by decide⟩))
    (fun h => by rcases h with h | h <;> exact absurd h (by decide))
    (by decide)


end NearbyAmenities
